import Mathlib

/-!
Shallow embedding of the project dependency analyzer
(`src/dependencyManager.ts`) of the AION VS Code extension, together with
theorems settling the specification claims about it.

Modelling conventions:
* JavaScript `Map<string, _>` values are association lists with `Map.set`
  semantics (`mapSet` keeps the position of an existing key, appends new
  keys at the end).
* Platform primitives are parameters of a context record `Ctx`:
  `fs.existsSync` is `fsExists`, `fs.readFile` is `read` (an `Except`
  value models the promise rejection), and the regular-expression engine
  used for the JavaScript/HTML/CSS patterns is a family of match oracles
  (`content → list of (whole match, first capture)`).  The two Markdown
  patterns are simple enough to be implemented concretely (`mdImageMatches`,
  `mdLinkMatches`), because claims depend on their actual behaviour.
* `JSON.parse` is implemented concretely (`parseJson`) over a small JSON
  value type; `\u` escapes and numeric truthiness are approximated, which
  no claim exercises.
* Node `path` functions are modelled for POSIX paths without trailing
  slashes, which is the shape of every path the analyzer produces.
* The stateful pieces (the per-instance dependency cache, `console.error`
  logging, and which files were read from disk) are made explicit in the
  result record `ARes` (deps, cache, log, reads).
-/

/-- JS `Array.prototype.startsWith` on char lists. -/
def listStartsWith : List Char → List Char → Bool
  | _, [] => true
  | [], _ :: _ => false
  | a :: as, b :: bs => a == b && listStartsWith as bs

/-- Substring test on char lists (JS `String.prototype.includes`). -/
def listContainsSub : List Char → List Char → Bool
  | [], pat => pat.isEmpty
  | s@(_ :: rest), pat => listStartsWith s pat || listContainsSub rest pat

/-- JS `s.includes(pat)`. -/
def jsIncludes (s pat : String) : Bool :=
  listContainsSub s.toList pat.toList

/-- JS `s.startsWith(pre)`. -/
def jsStartsWith (s pre : String) : Bool :=
  listStartsWith s.toList pre.toList

/-- JS `s.endsWith(suf)`. -/
def jsEndsWith (s suf : String) : Bool :=
  listStartsWith s.toList.reverse suf.toList.reverse

/-- Split a character list at every occurrence of a separator character. -/
def splitChar (c : Char) : List Char → List (List Char)
  | [] => [[]]
  | x :: rest =>
      match splitChar c rest with
      | [] => [[]]
      | h :: t => if x = c then [] :: h :: t else (x :: h) :: t

/-- `s.split(sep)` for a one-character separator (the only shape used by
the analyzer: `"/"` for paths and `"\n"` for lines). -/
def splitOnChar (c : Char) (s : String) : List String :=
  (splitChar c s.toList).map String.mk

/-- Association list lookup with JS `Map.get` semantics. -/
def mapLookup {β : Type} : List (String × β) → String → Option β
  | [], _ => none
  | (k', v') :: rest, k => if k' == k then some v' else mapLookup rest k

/-- Association list update with JS `Map.set` semantics: an existing key
keeps its position, a new key is appended. -/
def mapSet {β : Type} : List (String × β) → String → β → List (String × β)
  | [], k, v => [(k, v)]
  | (k', v') :: rest, k, v =>
      if k' == k then (k, v) :: rest else (k', v') :: mapSet rest k v

/-- JS `Map.has`. -/
def mapContains {β : Type} (m : List (String × β)) (k : String) : Bool :=
  (mapLookup m k).isSome

/- ### Node `path` (POSIX) -/

/-- Node `path.resolve` normalization of an absolute path string:
split on `/`, drop empty and `.` segments, let `..` pop. -/
def resolveAbs (s : String) : String :=
  let stack := (splitOnChar '/' s).foldl
    (fun st seg =>
      if seg = "" || seg = "." then st
      else if seg = ".." then st.dropLast
      else st ++ [seg]) []
  "/" ++ String.intercalate "/" stack

/-- Relative-path normalization used by Node `path.join` on relative
inputs: leading `..` segments are kept. -/
def normRel (s : String) : String :=
  let stack := (splitOnChar '/' s).foldl
    (fun st seg =>
      if seg = "" || seg = "." then st
      else if seg = ".." then
        match st.getLast? with
        | some l => if l = ".." then st ++ [".."] else st.dropLast
        | none => [".."]
      else st ++ [seg]) []
  String.intercalate "/" stack

/-- Node `path.join(a, b)`. -/
def pathJoin (a b : String) : String :=
  if jsStartsWith a "/" then resolveAbs (a ++ "/" ++ b) else normRel (a ++ "/" ++ b)

/-- Node `path.resolve(dir, ref)`; `cwd` stands for `process.cwd()` and is
assumed absolute. -/
def pathResolve (cwd dir ref : String) : String :=
  if jsStartsWith ref "/" then resolveAbs ref
  else if jsStartsWith dir "/" then resolveAbs (dir ++ "/" ++ ref)
  else resolveAbs (cwd ++ "/" ++ dir ++ "/" ++ ref)

/-- Node `path.dirname` (POSIX, no trailing slash). -/
def dirname (s : String) : String :=
  let parts := splitOnChar '/' s
  if parts.length ≤ 1 then "."
  else
    let d := String.intercalate "/" parts.dropLast
    if d = "" then "/" else d

/-- Node `path.extname` (POSIX). -/
def extname (s : String) : String :=
  let b := match (splitOnChar '/' s).getLast? with
    | some x => x
    | none => s
  let cs := b.toList
  let after := cs.reverse.takeWhile (fun c => c ≠ '.')
  if after.length = cs.length then ""
  else if cs.length - 1 - after.length = 0 then ""
  else String.mk ('.' :: after.reverse)

/- ### Data model (`projectScanner.ts` types consumed here, and the
dependency types of `dependencyManager.ts`) -/

/-- `FileType` from `projectScanner.ts` (the constructors used by the
dependency manager). -/
inductive FileType where
  | JavaScript | TypeScript | HTML | CSS | JSON | Markdown | Image | Unknown
deriving DecidableEq, Repr

/-- `FileInfo` from `projectScanner.ts`. -/
structure FileInfo where
  path : String
  relativePath : String
  name : String
  extension : String
  type : FileType
  size : Nat
  lastModified : Nat
  content : Option String
deriving Repr

/-- `DependencyType` enum. -/
inductive DependencyType where
  | Import | Export | Reference | Usage | StyleImport | HtmlLink | Unknown
deriving DecidableEq, Repr

/-- `Dependency` interface. -/
structure Dependency where
  source : String
  target : String
  type : DependencyType
  lineNumbers : Option (List Nat)
  isExternal : Bool
deriving DecidableEq, Repr

/-- `DependencyGraph` interface. -/
structure DependencyGraph where
  nodes : List (String × FileInfo)
  edges : List (String × List (String × Dependency))

/-- The per-instance dependency cache (`Map<string, Dependency[]>`). -/
abbrev Cache := List (String × List Dependency)

/-- A regex match: `(match[0], match[1])`. -/
abbrev RMatch := String × String

/-- Ambient platform and configuration: workspace root, `process.cwd()`,
filesystem oracles, and the regex engine for the patterns that are kept
abstract. -/
structure Ctx where
  workspaceRoot : Option String
  cwd : String
  fsExists : String → Bool
  read : String → Except String String
  jsImportMatches : String → List RMatch
  jsRequireMatches : String → List RMatch
  jsDynamicImportMatches : String → List RMatch
  jsReferenceMatches : String → List RMatch
  htmlScriptMatches : String → List RMatch
  htmlLinkMatches : String → List RMatch
  htmlImgMatches : String → List RMatch
  cssImportMatches : String → List RMatch
  cssUrlMatches : String → List RMatch

/- ### A small JSON value type and parser (`JSON.parse`) -/

/-- JSON values; objects keep key order with last-duplicate-wins
(`mapSet`), as `JSON.parse` does. -/
inductive Json where
  | jnull
  | jbool (b : Bool)
  | jnum (raw : String)
  | jstr (s : String)
  | jarr (elems : List Json)
  | jobj (members : List (String × Json))

/-- Skip JSON whitespace. -/
def skipWs : List Char → List Char
  | c :: cs =>
      if c = ' ' || c = '\t' || c = '\n' || c = '\r' then skipWs cs else c :: cs
  | [] => []

/-- Decode one escape character of a JSON string (`\u` not supported;
unknown escapes pass through, which no claim exercises). -/
def unescapeChar (c : Char) : Char :=
  if c = 'n' then '\n' else if c = 't' then '\t' else if c = 'r' then '\r' else c

/-- Parse the body of a JSON string after the opening quote; returns the
decoded characters and the input after the closing quote. -/
def parseStrAux : List Char → Option (List Char × List Char)
  | [] => none
  | '"' :: rest => some ([], rest)
  | '\\' :: e :: rest =>
      match parseStrAux rest with
      | some (out, r) => some (unescapeChar e :: out, r)
      | none => none
  | c :: rest =>
      match parseStrAux rest with
      | some (out, r) => some (c :: out, r)
      | none => none

/-- Characters that may occur in a JSON number literal. -/
def isNumChar (c : Char) : Bool :=
  c.isDigit || c = '-' || c = '+' || c = '.' || c = 'e' || c = 'E'

mutual

/-- Recursive-descent JSON value parser (fuel-indexed; the entry point
supplies ample fuel). -/
def parseValue : Nat → List Char → Except String (Json × List Char)
  | 0, _ => Except.error "parse error"
  | fuel + 1, cs =>
    match skipWs cs with
    | [] => Except.error "parse error"
    | '"' :: rest =>
        match parseStrAux rest with
        | some (out, r) => Except.ok (Json.jstr (String.mk out), r)
        | none => Except.error "parse error"
    | '\x7b' :: rest => parseObjRest fuel (skipWs rest) []
    | '[' :: rest => parseArrRest fuel (skipWs rest) []
    | cs' =>
        if listStartsWith cs' "true".toList then
          Except.ok (Json.jbool true, cs'.drop 4)
        else if listStartsWith cs' "false".toList then
          Except.ok (Json.jbool false, cs'.drop 5)
        else if listStartsWith cs' "null".toList then
          Except.ok (Json.jnull, cs'.drop 4)
        else
          let num := cs'.takeWhile isNumChar
          if num.isEmpty then Except.error "parse error"
          else Except.ok (Json.jnum (String.mk num), cs'.drop num.length)

/-- Parse the members of a JSON object after the opening brace. -/
def parseObjRest : Nat → List Char → List (String × Json) →
    Except String (Json × List Char)
  | 0, _, _ => Except.error "parse error"
  | fuel + 1, cs, acc =>
    match cs with
    | '\x7d' :: rest => Except.ok (Json.jobj acc, rest)
    | '"' :: rest =>
        match parseStrAux rest with
        | some (key, r) =>
            (match skipWs r with
             | ':' :: r2 =>
                 (match parseValue fuel r2 with
                  | Except.ok (v, r3) =>
                      let acc' := mapSet acc (String.mk key) v
                      (match skipWs r3 with
                       | ',' :: r4 => parseObjRest fuel (skipWs r4) acc'
                       | '\x7d' :: r4 => Except.ok (Json.jobj acc', r4)
                       | _ => Except.error "parse error")
                  | Except.error e => Except.error e)
             | _ => Except.error "parse error")
        | none => Except.error "parse error"
    | _ => Except.error "parse error"

/-- Parse the elements of a JSON array after the opening bracket. -/
def parseArrRest : Nat → List Char → List Json →
    Except String (Json × List Char)
  | 0, _, _ => Except.error "parse error"
  | fuel + 1, cs, acc =>
    match cs with
    | ']' :: rest => Except.ok (Json.jarr acc, rest)
    | cs' =>
        match parseValue fuel cs' with
        | Except.ok (v, r) =>
            (match skipWs r with
             | ',' :: r2 => parseArrRest fuel (skipWs r2) (acc ++ [v])
             | ']' :: r2 => Except.ok (Json.jarr (acc ++ [v]), r2)
             | _ => Except.error "parse error")
        | Except.error e => Except.error e

end

/-- `JSON.parse`: parse a whole document, rejecting trailing input. -/
def parseJson (s : String) : Except String Json :=
  match parseValue (2 * s.length + 4) s.toList with
  | Except.error e => Except.error e
  | Except.ok (v, rest) =>
      match skipWs rest with
      | [] => Except.ok v
      | _ => Except.error "parse error"

/-- JS property read `value[key]` for a string key (undefined on
non-objects, as for the keys used here). -/
def jsonIndex : Json → String → Option Json
  | Json.jobj kvs, k => mapLookup kvs k
  | _, _ => none

/-- JS truthiness (`if (x)`); numeric truthiness is approximated on the
raw literal, which no claim exercises. -/
def jsTruthy : Json → Bool
  | Json.jnull => false
  | Json.jbool b => b
  | Json.jstr s => !(s = "")
  | Json.jnum raw => !(raw = "0" || raw = "-0" || raw = "0.0" || raw = "+0")
  | Json.jarr _ => true
  | Json.jobj _ => true

/-- JS `Object.entries` for the values reachable here. -/
def jsEntries : Json → List (String × Json)
  | Json.jobj kvs => kvs
  | Json.jarr xs => xs.enum.map (fun p => (toString p.1, p.2))
  | Json.jstr s => s.toList.enum.map (fun p => (toString p.1, Json.jstr (String.mk [p.2])))
  | _ => []

/- ### Markdown pattern scanners -/

/-- Scanner for the image pattern of `extractMarkdownDependencies`; it
reproduces the JS global-regex scan: at each position try to match, on
success continue after the match, on failure advance one character.  The
pattern's sub-expressions are forced spans, so the scan is deterministic.
Fuel-indexed; the entry point supplies ample fuel. -/
def scanImage : Nat → List Char → List (String × String × String)
  | 0, _ => []
  | _, [] => []
  | fuel + 1, '!' :: '[' :: rest =>
      let altCs := rest.takeWhile (fun c => c ≠ ']')
      (match rest.drop altCs.length with
       | ']' :: '(' :: rest2 =>
           let pCs := rest2.takeWhile (fun c => c ≠ ')')
           if pCs.isEmpty then scanImage fuel ('[' :: rest)
           else
             (match rest2.drop pCs.length with
              | ')' :: rest3 =>
                  (String.mk ('!' :: '[' :: altCs ++ ']' :: '(' :: pCs ++ [')']),
                   String.mk altCs, String.mk pCs) :: scanImage fuel rest3
              | _ => scanImage fuel ('[' :: rest))
       | _ => scanImage fuel ('[' :: rest))
  | fuel + 1, _ :: rest => scanImage fuel rest

/-- Scanner for the link pattern of `extractMarkdownDependencies`
(alt text must be nonempty). -/
def scanLink : Nat → List Char → List (String × String × String)
  | 0, _ => []
  | _, [] => []
  | fuel + 1, '[' :: rest =>
      let altCs := rest.takeWhile (fun c => c ≠ ']')
      if altCs.isEmpty then scanLink fuel rest
      else
        (match rest.drop altCs.length with
         | ']' :: '(' :: rest2 =>
             let pCs := rest2.takeWhile (fun c => c ≠ ')')
             if pCs.isEmpty then scanLink fuel rest
             else
               (match rest2.drop pCs.length with
                | ')' :: rest3 =>
                    (String.mk ('[' :: altCs ++ ']' :: '(' :: pCs ++ [')']),
                     String.mk altCs, String.mk pCs) :: scanLink fuel rest3
                | _ => scanLink fuel rest)
         | _ => scanLink fuel rest)
  | fuel + 1, _ :: rest => scanLink fuel rest

/-- `content.matchAll(/!\[([^\]]*)\]\(([^)]+)\)/g)` as
`(match[0], match[1], match[2])` triples. -/
def mdImageMatches (content : String) : List (String × String × String) :=
  scanImage (content.length + 1) content.toList

/-- `content.matchAll(/\[([^\]]+)\]\(([^)]+)\)/g)` as
`(match[0], match[1], match[2])` triples. -/
def mdLinkMatches (content : String) : List (String × String × String) :=
  scanLink (content.length + 1) content.toList

/- ### DependencyManager: configuration and small helpers -/

/-- `externalPackagePatterns` field of `DependencyManager`. -/
def externalPackagePatterns : List String :=
  ["node_modules", "https://cdn", "http://cdn", "https://unpkg.com", "https://jsdelivr.com"]

/-- `isExternalDependency`. -/
def isExternalDependency (importPath : String) : Bool :=
  if externalPackagePatterns.any (fun pat => jsIncludes importPath pat) then true
  else if jsStartsWith importPath "." || jsStartsWith importPath "/" then false
  else true

/-- `shouldProcessExternalDependency` (always `false` in the source). -/
def shouldProcessExternalDependency (_path : String) : Bool :=
  false

/-- The binary-extension list of `isBinaryFile`. -/
def binaryExtensions : List String :=
  [".pdf", ".zip", ".gz", ".tar",
   ".exe", ".dll", ".so", ".dylib",
   ".jpg", ".jpeg", ".png", ".gif", ".svg", ".ico",
   ".mp3", ".mp4", ".wav", ".avi", ".mkv",
   ".doc", ".docx", ".xls", ".xlsx", ".ppt", ".pptx"]

/-- `isBinaryFile`. -/
def isBinaryFile (file : FileInfo) : Bool :=
  if file.type = FileType.Image then true
  else binaryExtensions.contains file.extension

/-- `findLineNumbers`: 0-based indices of the lines containing the
matched snippet. -/
def findLineNumbers (content pattern : String) : List Nat :=
  (splitOnChar '\n' content).enum.filterMap
    (fun p => if jsIncludes p.2 pattern then some p.1 else none)

/-- The candidate-extension list of `resolveImportPath`. -/
def candidateExtensions : List String :=
  [".js", ".jsx", ".ts", ".tsx", ".json", ".css", ".scss", ".html", ".md"]

/-- `resolveImportPath`. -/
def resolveImportPath (ctx : Ctx) (sourcePath importPath : String) : String :=
  if jsStartsWith importPath "/" || jsStartsWith importPath "http" then
    match ctx.workspaceRoot with
    | some root => if jsStartsWith importPath "/" then pathJoin root importPath else importPath
    | none => importPath
  else
    let sourceDir := dirname sourcePath
    let resolvedPath := pathResolve ctx.cwd sourceDir importPath
    if extname resolvedPath = "" then
      match candidateExtensions.find? (fun ext => ctx.fsExists (resolvedPath ++ ext)) with
      | some ext => resolvedPath ++ ext
      | none =>
        match candidateExtensions.find?
            (fun ext => ctx.fsExists (pathJoin resolvedPath ("index" ++ ext))) with
        | some ext => pathJoin resolvedPath ("index" ++ ext)
        | none => resolvedPath
    else resolvedPath

/- ### Per-format extraction -/

/-- `extractJavaScriptDependencies`: the import/require/dynamic-import
matches are processed in one loop (external ones are skipped when
`shouldProcessExternalDependency` declines them), then the triple-slash
reference matches in a second loop. -/
def extractJavaScriptDependencies (ctx : Ctx) (filePath content : String) :
    List Dependency :=
  let importMatches := ctx.jsImportMatches content
  let requireMatches := ctx.jsRequireMatches content
  let dynamicImportMatches := ctx.jsDynamicImportMatches content
  let referenceMatches := ctx.jsReferenceMatches content
  ((importMatches ++ requireMatches ++ dynamicImportMatches).filterMap
    (fun m =>
      let importPath := m.2
      if isExternalDependency importPath && !shouldProcessExternalDependency importPath then
        none
      else
        some { source := filePath,
               target := resolveImportPath ctx filePath importPath,
               type := DependencyType.Import,
               lineNumbers := some (findLineNumbers content m.1),
               isExternal := isExternalDependency importPath }))
  ++ referenceMatches.map
    (fun m =>
      { source := filePath,
        target := resolveImportPath ctx filePath m.2,
        type := DependencyType.Reference,
        lineNumbers := some (findLineNumbers content m.1),
        isExternal := false })

/-- `extractHTMLDependencies`: script, link and image tags. -/
def extractHTMLDependencies (ctx : Ctx) (filePath content : String) :
    List Dependency :=
  let mk := fun (m : RMatch) =>
    { source := filePath,
      target := resolveImportPath ctx filePath m.2,
      type := DependencyType.HtmlLink,
      lineNumbers := some (findLineNumbers content m.1),
      isExternal := isExternalDependency m.2 : Dependency }
  let keep := fun (src : String) =>
    !(jsStartsWith src "data:" || (jsStartsWith src "http" && !shouldProcessExternalDependency src))
  ((ctx.htmlScriptMatches content).filterMap (fun m => if keep m.2 then some (mk m) else none))
  ++ ((ctx.htmlLinkMatches content).filterMap (fun m => if keep m.2 then some (mk m) else none))
  ++ ((ctx.htmlImgMatches content).filterMap (fun m => if keep m.2 then some (mk m) else none))

/-- `extractCSSDependencies`: `@import` statements and `url()` references. -/
def extractCSSDependencies (ctx : Ctx) (filePath content : String) :
    List Dependency :=
  let mk := fun (m : RMatch) =>
    { source := filePath,
      target := resolveImportPath ctx filePath m.2,
      type := DependencyType.StyleImport,
      lineNumbers := some (findLineNumbers content m.1),
      isExternal := isExternalDependency m.2 : Dependency }
  ((ctx.cssImportMatches content).filterMap
    (fun m =>
      if (jsStartsWith m.2 "http" && !shouldProcessExternalDependency m.2) || jsStartsWith m.2 "data:"
      then none else some (mk m)))
  ++ ((ctx.cssUrlMatches content).filterMap
    (fun m =>
      if jsStartsWith m.2 "http" || jsStartsWith m.2 "data:" || jsStartsWith m.2 "#"
      then none else some (mk m)))

/-- `extractJSONDependencies`: only `package.json` manifests; returns the
dependencies together with the `console.error` log of a parse failure. -/
def extractJSONDependencies (filePath content : String) :
    List Dependency × List String :=
  if !(jsEndsWith filePath "package.json") then ([], [])
  else
    match parseJson content with
    | Except.error _ => ([], ["Error parsing JSON in " ++ filePath])
    | Except.ok packageJson =>
      let dependencySections :=
        ["dependencies", "devDependencies", "peerDependencies", "optionalDependencies"]
      ((dependencySections.map (fun sec =>
          match jsonIndex packageJson sec with
          | some v =>
              if jsTruthy v then
                (jsEntries v).map (fun kv =>
                  { source := filePath,
                    target := "node_modules/" ++ kv.1,
                    type := DependencyType.Import,
                    lineNumbers := none,
                    isExternal := true })
              else []
          | none => [])).flatten, [])

/-- `extractMarkdownDependencies`: image references, then local links. -/
def extractMarkdownDependencies (ctx : Ctx) (filePath content : String) :
    List Dependency :=
  ((mdImageMatches content).filterMap
    (fun m =>
      if jsStartsWith m.2.2 "http" then none
      else
        some { source := filePath,
               target := resolveImportPath ctx filePath m.2.2,
               type := DependencyType.Reference,
               lineNumbers := some (findLineNumbers content m.1),
               isExternal := false }))
  ++ ((mdLinkMatches content).filterMap
    (fun m =>
      if jsStartsWith m.2.2 "http" || jsStartsWith m.2.2 "#" || jsIncludes m.2.2 "@" then none
      else
        some { source := filePath,
               target := resolveImportPath ctx filePath m.2.2,
               type := DependencyType.Reference,
               lineNumbers := some (findLineNumbers content m.1),
               isExternal := false }))

/- ### `analyzeDependencies` -/

/-- Result of one `analyzeDependencies` call: the returned list, the
updated per-instance cache, the `console.error` log, and the paths read
from disk during the call. -/
structure ARes where
  deps : List Dependency
  cache : Cache
  log : List String
  reads : List String

/-- The `switch (file.type)` dispatch of `analyzeDependencies`. -/
def runExtract (ctx : Ctx) (file : FileInfo) (content : String) :
    List Dependency × List String :=
  match file.type with
  | FileType.JavaScript => (extractJavaScriptDependencies ctx file.path content, [])
  | FileType.TypeScript => (extractJavaScriptDependencies ctx file.path content, [])
  | FileType.HTML => (extractHTMLDependencies ctx file.path content, [])
  | FileType.CSS => (extractCSSDependencies ctx file.path content, [])
  | FileType.JSON => extractJSONDependencies file.path content
  | FileType.Markdown => (extractMarkdownDependencies ctx file.path content, [])
  | _ => ([], [])

/-- The cache-miss body of `analyzeDependencies`: size/binary skip,
content load (with read-failure absorption) and format dispatch.  Every
branch of the source stores its result list in the cache and returns it,
so the body is factored as the `(deps, log, reads)` it produces. -/
def analyzeCore (ctx : Ctx) (file : FileInfo) :
    List Dependency × List String × List String :=
  if 1024 * 1024 < file.size || isBinaryFile file then ([], [], [])
  else
    match file.content with
    | some c => ((runExtract ctx file c).1, (runExtract ctx file c).2, [])
    | none =>
        match ctx.read file.path with
        | Except.error _ => ([], ["Error reading file " ++ file.path], [file.path])
        | Except.ok c => ((runExtract ctx file c).1, (runExtract ctx file c).2, [file.path])

/-- `analyzeDependencies`: cache check first; on a miss the computed list
is stored in the cache (also when empty) and returned. -/
def analyzeDependencies (ctx : Ctx) (file : FileInfo) (cache : Cache) : ARes :=
  match mapLookup cache file.path with
  | some cached => ⟨cached, cache, [], []⟩
  | none =>
      ⟨(analyzeCore ctx file).1,
       mapSet cache file.path (analyzeCore ctx file).1,
       (analyzeCore ctx file).2.1,
       (analyzeCore ctx file).2.2⟩

/- ### `buildDependencyGraph` -/

/-- Result of a graph build: the graph plus the threaded analyzer state. -/
structure BuildRes where
  graph : DependencyGraph
  cache : Cache
  log : List String
  reads : List String

/-- Insertion of one extracted dependency into the graph: only targets
that are existing node keys become edges, and the edge is stored in the
source file's (pre-created) edge map. -/
def insertEdge (g : DependencyGraph) (srcPath : String) (dep : Dependency) :
    DependencyGraph :=
  if mapContains g.nodes dep.target then
    match mapLookup g.edges srcPath with
    | some m => { g with edges := mapSet g.edges srcPath (mapSet m dep.target dep) }
    | none => g
  else g

/-- One iteration of the per-file loop of `buildDependencyGraph`. -/
def buildStep (ctx : Ctx) (acc : BuildRes) (file : FileInfo) : BuildRes :=
  let r := analyzeDependencies ctx file acc.cache
  ⟨r.deps.foldl (fun g dep => insertEdge g file.path dep) acc.graph,
   r.cache, acc.log ++ r.log, acc.reads ++ r.reads⟩

/-- `buildDependencyGraph`: every file becomes a node and gets an empty
edge map, then each file's dependencies are analyzed and inserted. -/
def buildDependencyGraph (ctx : Ctx) (files : List FileInfo) (cache0 : Cache) :
    BuildRes :=
  let init : DependencyGraph :=
    { nodes := files.foldl (fun n f => mapSet n f.path f) [],
      edges := files.foldl (fun e f => mapSet e f.path []) [] }
  files.foldl (buildStep ctx) ⟨init, cache0, [], []⟩

/- ### Cycle detection -/

/-- The rotation check of `dfsForCycles`: a recorded cycle blocks a new
one when they have the same length and some rotation offset makes the
recorded list equal to the rotated new list. -/
def isCycleRecorded (cycles : List (List String)) (cycle : List String) : Bool :=
  cycles.any (fun recordedCycle =>
    recordedCycle.length == cycle.length &&
    (List.range recordedCycle.length).any (fun i =>
      (List.range recordedCycle.length).all (fun j =>
        recordedCycle.getD j "" == cycle.getD ((i + j) % cycle.length) "")))

/-- `path.indexOf(current)`. -/
def idxOf : List String → String → Option Nat
  | [], _ => none
  | x :: rest, s =>
      if x == s then some 0
      else match idxOf rest s with
        | some i => some (i + 1)
        | none => none

/-- JS `Set.add`. -/
def insertSet (visited : List String) (s : String) : List String :=
  if visited.contains s then visited else visited ++ [s]

/-- The recursion of `dfsForCycles`, processing a worklist of sibling
nodes that share one path.  The `visited` set is shared (threaded) across
the whole traversal of one top-level start, while each recursive descent
gets its own extended path copy.  Structural fuel stands in for the
unbounded JS recursion: one unit is spent per visited worklist entry, so
any fuel at least the number of evaluation steps gives exactly the JS
behaviour; the entry points supply ample fuel for the graphs considered
here. -/
def dfsWork (g : DependencyGraph) :
    Nat → List String → List String → List String → List (List String) →
    List String × List (List String)
  | 0, _, visited, _, cycles => (visited, cycles)
  | _, [], visited, _, cycles => (visited, cycles)
  | fuel + 1, current :: rest, visited, path, cycles =>
      let r :=
        if visited.contains current then (visited, cycles)
        else
          match idxOf path current with
          | some cycleIndex =>
              let cycle := path.drop cycleIndex ++ [current]
              (visited,
               if isCycleRecorded cycles cycle then cycles else cycles ++ [cycle])
          | none =>
              let targets := ((mapLookup g.edges current).getD []).map Prod.fst
              let rc := dfsWork g fuel targets visited (path ++ [current]) cycles
              (insertSet rc.1 current, rc.2)
      dfsWork g fuel rest r.1 path r.2

/-- `dfsForCycles` on a single start node. -/
def dfsForCycles (g : DependencyGraph) (fuel : Nat) (current : String)
    (visited path : List String) (cycles : List (List String)) :
    List String × List (List String) :=
  dfsWork g fuel [current] visited path cycles

/-- Generous fuel for `dfsForCycles`; sufficient whenever the DFS tree of
one start node has at most this many entries, which holds for every graph
appearing in a theorem below. -/
def dfsFuel (g : DependencyGraph) : Nat :=
  (g.nodes.length + (g.edges.map (fun e => e.2.length)).sum + 1) ^ 3 + 8

/-- `findCircularDependencies`: fresh `visited` and path per start node,
one shared list of recorded cycles. -/
def findCircularDependencies (g : DependencyGraph) : List (List String) :=
  (g.nodes.map Prod.fst).foldl
    (fun cycles startNode => (dfsForCycles g (dfsFuel g) startNode [] [] cycles).2) []

/- ### Concrete fixtures used by witnesses and counterexamples -/

/-- A minimal environment: empty filesystem, failing reads, no matches
from the abstract pattern oracles. -/
def ctxW : Ctx :=
  { workspaceRoot := none, cwd := "/", fsExists := fun _ => false,
    read := fun _ => Except.error "ENOENT",
    jsImportMatches := fun _ => [], jsRequireMatches := fun _ => [],
    jsDynamicImportMatches := fun _ => [], jsReferenceMatches := fun _ => [],
    htmlScriptMatches := fun _ => [], htmlLinkMatches := fun _ => [],
    htmlImgMatches := fun _ => [], cssImportMatches := fun _ => [],
    cssUrlMatches := fun _ => [] }

/-- Environment in which exactly `/p/b.ts` exists on disk. -/
def ctxResolve : Ctx :=
  { ctxW with fsExists := fun s => s == "/p/b.ts" }

/-- Node fixture for the circular-dependency graph. -/
def fileA : FileInfo :=
  { path := "A", relativePath := "A", name := "A", extension := ".ts",
    type := FileType.TypeScript, size := 1, lastModified := 0, content := none }

/-- Second node fixture. -/
def fileB : FileInfo := { fileA with path := "B" }

/-- Third node fixture. -/
def fileC : FileInfo := { fileA with path := "C" }

/-- An import edge between two node keys. -/
def mkEdge (s t : String) : Dependency :=
  ⟨s, t, DependencyType.Import, none, false⟩

/-- The graph with exactly the edges `A→B`, `B→C`, `C→A`. -/
def cycleGraph : DependencyGraph :=
  { nodes := [("A", fileA), ("B", fileB), ("C", fileC)],
    edges := [("A", [("B", mkEdge "A" "B")]),
              ("B", [("C", mkEdge "B" "C")]),
              ("C", [("A", mkEdge "C" "A")])] }

/-- A markdown file whose single link resolves to the sibling node. -/
def fmdA : FileInfo :=
  { path := "/w/a.md", relativePath := "a.md", name := "a.md", extension := ".md",
    type := FileType.Markdown, size := 9, lastModified := 0, content := some "[t](b.md)" }

/-- The sibling markdown file with empty content. -/
def fmdB : FileInfo :=
  { path := "/w/b.md", relativePath := "b.md", name := "b.md", extension := ".md",
    type := FileType.Markdown, size := 0, lastModified := 0, content := some "" }

/-- A markdown file with no references at all. -/
def fmdEmpty : FileInfo :=
  { path := "/w/x.md", relativePath := "x.md", name := "x.md", extension := ".md",
    type := FileType.Markdown, size := 0, lastModified := 0, content := some "" }

/-- An image file (binary, skipped by the analyzer). -/
def fImg : FileInfo :=
  { path := "/w/i.png", relativePath := "i.png", name := "i.png", extension := ".png",
    type := FileType.Image, size := 5, lastModified := 0, content := none }

/-- A small readable-category file whose content must be loaded from disk. -/
def fRead : FileInfo :=
  { path := "/w/r.md", relativePath := "r.md", name := "r.md", extension := ".md",
    type := FileType.Markdown, size := 4, lastModified := 0, content := none }

/-- A package manifest whose content is not valid JSON. -/
def fBadJson : FileInfo :=
  { path := "/w/package.json", relativePath := "package.json", name := "package.json",
    extension := ".json", type := FileType.JSON, size := 8, lastModified := 0,
    content := some "not json" }

/-- The manifest content `{"dependencies": {"lodash": "^4.0.0"}}`. -/
def manifestW : String :=
  "\x7b\"dependencies\": \x7b\"lodash\": \"^4.0.0\"\x7d\x7d"

/- ### Specification-side definitions used in theorem statements -/

/-- Spec side (C6): the packages listed in one manifest section. -/
def sectionPackages (o : List (String × Json)) (sec : String) : List String :=
  match mapLookup o sec with
  | some (Json.jobj kvs) => kvs.map Prod.fst
  | _ => []

/-- The edge invariant of a dependency graph: every edge-map key and
every stored target is a node key. -/
def EdgesOk (g : DependencyGraph) : Prop :=
  (∀ s, mapContains g.edges s = true → mapContains g.nodes s = true) ∧
  (∀ s m, mapLookup g.edges s = some m →
    ∀ t d, (t, d) ∈ m → mapContains g.nodes t = true)

/- ### Association-list lemmas -/

theorem mapLookup_mapSet_self {β : Type} (m : List (String × β)) (k : String) (v : β) :
    mapLookup (mapSet m k v) k = some v := by
  induction m with
  | nil => simp [mapSet, mapLookup]
  | cons e rest ih =>
    by_cases h : e.1 = k
    · simp [mapSet, mapLookup, h]
    · simp [mapSet, mapLookup, h, ih]

theorem mapLookup_mapSet_ne {β : Type} (m : List (String × β)) (k k' : String) (v : β)
    (h : k' ≠ k) : mapLookup (mapSet m k v) k' = mapLookup m k' := by
  have h' : ¬(k = k') := fun hh => h hh.symm
  induction m with
  | nil => simp [mapSet, mapLookup, h']
  | cons e rest ih =>
    obtain ⟨k1, v1⟩ := e
    by_cases he : k1 = k
    · subst he
      simp [mapSet, mapLookup, h']
    · simp [mapSet, mapLookup, he, ih]

theorem mem_mapSet {β : Type} (m : List (String × β)) (k : String) (v : β) (x : String × β)
    (h : x ∈ mapSet m k v) : x = (k, v) ∨ x ∈ m := by
  induction m with
  | nil => simpa [mapSet] using h
  | cons e rest ih =>
    obtain ⟨k1, v1⟩ := e
    by_cases he : k1 = k
    · subst he
      simp only [mapSet, beq_self_eq_true, if_pos rfl] at h
      rcases List.mem_cons.mp h with h | h
      · exact Or.inl h
      · exact Or.inr (List.mem_cons_of_mem _ h)
    · rw [mapSet, if_neg (by simpa using he)] at h
      rcases List.mem_cons.mp h with h | h
      · exact Or.inr (by simp [h])
      · rcases ih h with h | h
        · exact Or.inl h
        · exact Or.inr (List.mem_cons_of_mem _ h)

theorem mapContains_mapSet {β : Type} (m : List (String × β)) (k k' : String) (v : β) :
    mapContains (mapSet m k v) k' = true ↔ (k' = k ∨ mapContains m k' = true) := by
  by_cases h : k' = k
  · subst h; simp [mapContains, mapLookup_mapSet_self]
  · simp [mapContains, mapLookup_mapSet_ne m k k' v h, h]

theorem mapContains_foldl_mapSet {γ β : Type} (key : γ → String) (val : γ → β)
    (xs : List γ) :
    ∀ (m0 : List (String × β)) (t : String),
      mapContains (xs.foldl (fun m x => mapSet m (key x) (val x)) m0) t = true ↔
        (mapContains m0 t = true ∨ ∃ x ∈ xs, key x = t) := by
  induction xs with
  | nil => intro m0 t; simp
  | cons x xs ih =>
    intro m0 t
    rw [List.foldl_cons, ih, mapContains_mapSet]
    constructor
    · rintro ((h | h) | ⟨y, hy, hk⟩)
      · exact Or.inr ⟨x, List.mem_cons_self x xs, h.symm⟩
      · exact Or.inl h
      · exact Or.inr ⟨y, List.mem_cons_of_mem _ hy, hk⟩
    · rintro (h | ⟨y, hy, hk⟩)
      · exact Or.inl (Or.inr h)
      · rcases List.mem_cons.mp hy with rfl | hy'
        · exact Or.inl (Or.inl hk.symm)
        · exact Or.inr ⟨y, hy', hk⟩

theorem mapLookup_foldl_mapSet_const {γ β : Type} (key : γ → String) (v0 : β)
    (xs : List γ) :
    ∀ (e0 : List (String × β)) (s : String) (m : β),
      mapLookup (xs.foldl (fun e x => mapSet e (key x) v0) e0) s = some m →
      m = v0 ∨ mapLookup e0 s = some m := by
  induction xs with
  | nil => intro e0 s m h; exact Or.inr h
  | cons x xs ih =>
    intro e0 s m h
    rw [List.foldl_cons] at h
    rcases ih _ _ _ h with h1 | h1
    · exact Or.inl h1
    · by_cases hs : s = key x
      · subst hs; rw [mapLookup_mapSet_self] at h1
        exact Or.inl (Option.some.inj h1).symm
      · rw [mapLookup_mapSet_ne _ _ _ _ hs] at h1
        exact Or.inr h1

/- ### `analyzeDependencies` lemmas -/

theorem analyze_not_cached (ctx : Ctx) (f : FileInfo) (c : Cache)
    (h : mapLookup c f.path = none) :
    analyzeDependencies ctx f c =
      ⟨(analyzeCore ctx f).1, mapSet c f.path (analyzeCore ctx f).1,
       (analyzeCore ctx f).2.1, (analyzeCore ctx f).2.2⟩ := by
  unfold analyzeDependencies
  rw [h]

theorem analyze_cache_lookup (ctx : Ctx) (f : FileInfo) (c : Cache) :
    mapLookup (analyzeDependencies ctx f c).cache f.path =
      some (analyzeDependencies ctx f c).deps := by
  unfold analyzeDependencies
  cases h : mapLookup c f.path with
  | some v => simpa using h
  | none => simp [mapLookup_mapSet_self]

theorem analyze_deps_of_not_cached (ctx : Ctx) (f : FileInfo) (c : Cache)
    (h : mapLookup c f.path = none) :
    (analyzeDependencies ctx f c).deps = (analyzeDependencies ctx f []).deps := by
  rw [analyze_not_cached ctx f c h, analyze_not_cached ctx f [] rfl]

theorem analyze_cache_cases (ctx : Ctx) (f : FileInfo) (c : Cache) :
    (analyzeDependencies ctx f c).cache = c ∨
    (analyzeDependencies ctx f c).cache = mapSet c f.path (analyzeCore ctx f).1 := by
  unfold analyzeDependencies
  cases h : mapLookup c f.path with
  | some v => exact Or.inl rfl
  | none => exact Or.inr rfl

/- ### Claim theorems -/

/-- C1: on the graph with exactly the edges `A→B`, `B→C`, `C→A`,
`findCircularDependencies` returns three cycles — one rotated copy of the
same loop per start node — instead of the single representative the
specification demands.  The de-duplication rotates the closed list with
its duplicated endpoint, so genuine rotations of one loop never compare
equal. -/
theorem findCircularDependencies_reports_rotated_duplicates :
    findCircularDependencies cycleGraph =
      [["A", "B", "C", "A"], ["B", "C", "A", "B"], ["C", "A", "B", "C"]] ∧
    (findCircularDependencies cycleGraph).length = 3 := by
  constructor <;> decide

/-- C3: a file whose size exceeds 1 MiB or which is binary (image
category or recognized binary extension) yields the empty dependency
list, triggers no content read and no error log, and the empty list is
cached — provided its path is not already cached. -/
theorem analyzeDependencies_skips_large_and_binary (ctx : Ctx) (f : FileInfo) (c : Cache)
    (hcache : mapLookup c f.path = none)
    (hskip : 1024 * 1024 < f.size ∨ isBinaryFile f = true) :
    analyzeDependencies ctx f c = ⟨[], mapSet c f.path [], [], []⟩ := by
  have hcore : analyzeCore ctx f = ([], [], []) := by
    unfold analyzeCore
    rcases hskip with h | h
    · rw [if_pos]
      simp [h]
    · rw [if_pos]
      simp [h]
  rw [analyze_not_cached ctx f c hcache, hcore]

/-- Witness for C3 at the image file `fImg`. -/
theorem analyzeDependencies_skips_large_and_binary_witness :
    analyzeDependencies ctxW fImg [] = ⟨[], [("/w/i.png", [])], [], []⟩ :=
  (analyzeDependencies_skips_large_and_binary ctxW fImg [] rfl
    (Or.inr (by decide))).trans (by rfl)

/-- C4: `analyzeDependencies` is idempotent per path: after one call, a
second call for any descriptor with the same path — in any environment,
i.e. even if the file changed on disk — returns the first call's list
verbatim, leaves the cache untouched, logs nothing and reads nothing. -/
theorem analyzeDependencies_idempotent (ctx ctx' : Ctx) (f f' : FileInfo) (c : Cache)
    (hp : f'.path = f.path) :
    analyzeDependencies ctx' f' (analyzeDependencies ctx f c).cache =
      ⟨(analyzeDependencies ctx f c).deps, (analyzeDependencies ctx f c).cache, [], []⟩ := by
  have h := analyze_cache_lookup ctx f c
  generalize analyzeDependencies ctx f c = r at h ⊢
  unfold analyzeDependencies
  rw [hp, h]

/-- Witness for C4: the second call on `fImg`'s path returns the cached
first result. -/
theorem analyzeDependencies_idempotent_witness :
    analyzeDependencies ctxW fImg (analyzeDependencies ctxW fImg []).cache =
      ⟨(analyzeDependencies ctxW fImg []).deps,
       (analyzeDependencies ctxW fImg []).cache, [], []⟩ :=
  analyzeDependencies_idempotent ctxW ctxW fImg fImg [] rfl

/-- C8: per-file failures are absorbed: an unreadable file (content load
rejects) and a malformed package manifest both log the failure, produce
the empty list, and cache that empty result, instead of propagating an
exception. -/
theorem analyzeDependencies_absorbs_failures :
    (∀ (ctx : Ctx) (f : FileInfo) (c : Cache) (e : String),
      mapLookup c f.path = none →
      ¬(1024 * 1024 < f.size) → isBinaryFile f = false →
      f.content = none → ctx.read f.path = Except.error e →
      analyzeDependencies ctx f c =
        ⟨[], mapSet c f.path [], ["Error reading file " ++ f.path], [f.path]⟩) ∧
    (∀ (ctx : Ctx) (f : FileInfo) (c : Cache) (s e : String),
      mapLookup c f.path = none →
      ¬(1024 * 1024 < f.size) → isBinaryFile f = false →
      f.content = some s → f.type = FileType.JSON →
      jsEndsWith f.path "package.json" = true → parseJson s = Except.error e →
      analyzeDependencies ctx f c =
        ⟨[], mapSet c f.path [], ["Error parsing JSON in " ++ f.path], []⟩) := by
  constructor
  · intro ctx f c e hcache hsize hbin hcontent hread
    have hcore : analyzeCore ctx f =
        ([], ["Error reading file " ++ f.path], [f.path]) := by
      unfold analyzeCore
      rw [if_neg (by simp [hsize, hbin]), hcontent, hread]
    rw [analyze_not_cached ctx f c hcache, hcore]
  · intro ctx f c s e hcache hsize hbin hcontent htype hends hparse
    have hrun : runExtract ctx f s = ([], ["Error parsing JSON in " ++ f.path]) := by
      unfold runExtract
      rw [htype]
      show extractJSONDependencies f.path s = _
      unfold extractJSONDependencies
      rw [hends, hparse]
      rfl
    have hcore : analyzeCore ctx f =
        ([], ["Error parsing JSON in " ++ f.path], []) := by
      unfold analyzeCore
      rw [if_neg (by simp [hsize, hbin]), hcontent]
      show ((runExtract ctx f s).1, (runExtract ctx f s).2, ([] : List String)) = _
      rw [hrun]
    rw [analyze_not_cached ctx f c hcache, hcore]

/-- Witness for C8: the unreadable file `fRead` and the malformed
manifest `fBadJson`. -/
theorem analyzeDependencies_absorbs_failures_witness :
    (analyzeDependencies ctxW fRead [] =
      ⟨[], [("/w/r.md", [])], ["Error reading file /w/r.md"], ["/w/r.md"]⟩) ∧
    (analyzeDependencies ctxW fBadJson [] =
      ⟨[], [("/w/package.json", [])],
       ["Error parsing JSON in /w/package.json"], []⟩) :=
  ⟨(analyzeDependencies_absorbs_failures.1 ctxW fRead [] "ENOENT" rfl
      (by decide) (by decide) rfl rfl).trans (by rfl),
   (analyzeDependencies_absorbs_failures.2 ctxW fBadJson [] "not json" "parse error" rfl
      (by decide) (by decide) rfl rfl (by decide) (by rfl)).trans (by rfl)⟩

/- ### List helpers for the extraction theorems -/

theorem filterMap_guard {α β : Type} (p : α → Bool) (f : α → β) (l : List α) :
    l.filterMap (fun a => if p a then none else some (f a)) =
      (l.filter (fun a => !p a)).map f := by
  induction l with
  | nil => rfl
  | cons x xs ih =>
    by_cases h : p x = true <;> simp [h, ih]

theorem find?_map_eq {α β : Type} (f : α → β) (p : β → Bool) (l : List α) :
    (l.map f).find? p = (l.find? (fun a => p (f a))).map f := by
  induction l with
  | nil => rfl
  | cons x xs ih =>
    by_cases h : p (f x) = true <;> simp [List.find?, h, ih]

/-- C7: the external-reference policy.  (i) A reference is classified
external exactly when its text contains one of the configured markers or
it starts with neither `.` nor `/`;  (ii) external processing is disabled
for every input;  (iii) consequently the import-kind dependencies emitted
for a script file are exactly those of the non-external import, require
and dynamic-import matches — an external reference is dropped before path
resolution and yields no Dependency. -/
theorem externalDependency_policy :
    (∀ s : String, isExternalDependency s = true ↔
        ((∃ pat ∈ externalPackagePatterns, jsIncludes s pat = true) ∨
         (jsStartsWith s "." = false ∧ jsStartsWith s "/" = false))) ∧
    (∀ s : String, shouldProcessExternalDependency s = false) ∧
    (∀ (ctx : Ctx) (fp content : String),
      (extractJavaScriptDependencies ctx fp content).filter
          (fun d => decide (d.type = DependencyType.Import)) =
        ((ctx.jsImportMatches content ++ ctx.jsRequireMatches content ++
          ctx.jsDynamicImportMatches content).filter
            (fun m => !isExternalDependency m.2)).map
          (fun m =>
            { source := fp, target := resolveImportPath ctx fp m.2,
              type := DependencyType.Import,
              lineNumbers := some (findLineNumbers content m.1),
              isExternal := isExternalDependency m.2 })) := by
  refine ⟨?_, fun _ => rfl, ?_⟩
  · intro s
    unfold isExternalDependency
    by_cases h1 : externalPackagePatterns.any (fun pat => jsIncludes s pat) = true
    · rw [if_pos h1]
      simp only [List.any_eq_true] at h1
      simp [h1]
    · rw [if_neg h1]
      simp only [List.any_eq_true, not_exists] at h1
      by_cases h2 : (jsStartsWith s "." || jsStartsWith s "/") = true
      · rw [if_pos h2]
        rcases Bool.or_eq_true_iff.mp h2 with h3 | h3
        · simp [h1, h3]
        · simp [h1, h3]
      · rw [if_neg h2]
        have h2' : (jsStartsWith s "." || jsStartsWith s "/") = false :=
          Bool.eq_false_iff.mpr h2
        rcases Bool.or_eq_false_iff.mp h2' with ⟨h3, h4⟩
        simp [h3, h4]
  · intro ctx fp content
    simp only [extractJavaScriptDependencies, shouldProcessExternalDependency,
      Bool.not_false, Bool.and_true]
    rw [List.filter_append, filterMap_guard (fun m : RMatch => isExternalDependency m.2)]
    rw [List.filter_map, List.filter_map]
    have hT : ∀ l : List RMatch,
        (l.filter (fun m => !isExternalDependency m.2)).filter
            ((fun d : Dependency => decide (d.type = DependencyType.Import)) ∘
              (fun m : RMatch =>
                { source := fp, target := resolveImportPath ctx fp m.2,
                  type := DependencyType.Import,
                  lineNumbers := some (findLineNumbers content m.1),
                  isExternal := isExternalDependency m.2 })) =
          l.filter (fun m => !isExternalDependency m.2) := by
      intro l
      apply List.filter_eq_self.mpr
      intro a _
      simp
    have hF : ∀ l : List RMatch,
        l.filter ((fun d : Dependency => decide (d.type = DependencyType.Import)) ∘
            (fun m : RMatch =>
              { source := fp, target := resolveImportPath ctx fp m.2,
                type := DependencyType.Reference,
                lineNumbers := some (findLineNumbers content m.1),
                isExternal := false })) = [] := by
      intro l
      apply List.filter_eq_nil_iff.mpr
      intro a _
      simp
    rw [hT, hF]
    simp

/-- C5: a relative reference (one that starts with neither `/` nor
`http`) is resolved against the source file's directory; when the result
has no extension, the first existing candidate among the appended
extensions `.js .jsx .ts .tsx .json .css .scss .html .md` (in order) is
returned, otherwise the first existing `index.<ext>` inside the resolved
path (same order), otherwise the extension-less resolved path unchanged. -/
theorem resolveImportPath_relative_resolution (ctx : Ctx) (src ref : String)
    (h1 : jsStartsWith ref "/" = false) (h2 : jsStartsWith ref "http" = false) :
    resolveImportPath ctx src ref =
      (let r := pathResolve ctx.cwd (dirname src) ref
       if extname r = "" then
         match (candidateExtensions.map (fun ext => r ++ ext)).find? ctx.fsExists with
         | some c => c
         | none =>
             match (candidateExtensions.map
                 (fun ext => pathJoin r ("index" ++ ext))).find? ctx.fsExists with
             | some c => c
             | none => r
       else r) := by
  unfold resolveImportPath
  rw [h1, h2]
  rw [if_neg (by simp)]
  dsimp only
  rw [find?_map_eq, find?_map_eq]
  by_cases hext : extname (pathResolve ctx.cwd (dirname src) ref) = ""
  · rw [if_pos hext, if_pos hext]
    cases hfa : candidateExtensions.find?
        (fun ext => ctx.fsExists (pathResolve ctx.cwd (dirname src) ref ++ ext)) with
    | some e => simp [hfa]
    | none =>
      cases hfb : candidateExtensions.find?
          (fun ext => ctx.fsExists
            (pathJoin (pathResolve ctx.cwd (dirname src) ref) ("index" ++ ext))) with
      | some e => simp [hfa, hfb]
      | none => simp [hfa, hfb]
  · rw [if_neg hext, if_neg hext]

/-- Witness for C5: from `/p/a.ts`, the reference `./b` resolves to the
existing `/p/b.ts`. -/
theorem resolveImportPath_relative_resolution_witness :
    jsStartsWith "./b" "/" = false ∧ jsStartsWith "./b" "http" = false ∧
    resolveImportPath ctxResolve "/p/a.ts" "./b" = "/p/b.ts" :=
  ⟨by decide, by decide,
   (resolveImportPath_relative_resolution ctxResolve "/p/a.ts" "./b"
      (by decide) (by decide)).trans (by decide)⟩

/-- C6: on a `package.json` manifest parsing to an object whose present
dependency sections are objects, extraction emits, per package listed in
each of `dependencies`, `devDependencies`, `peerDependencies`,
`optionalDependencies` (in that order), exactly one Dependency with
target `node_modules/<package-name>`, kind import, external, and no
parse-error log. -/
theorem extractJSONDependencies_manifest_sections (fp content : String)
    (o : List (String × Json))
    (hfp : jsEndsWith fp "package.json" = true)
    (hparse : parseJson content = Except.ok (Json.jobj o))
    (hsec : ∀ sec ∈ (["dependencies", "devDependencies", "peerDependencies",
        "optionalDependencies"] : List String),
      ∀ v, mapLookup o sec = some v → ∃ kvs, v = Json.jobj kvs) :
    extractJSONDependencies fp content =
      (((["dependencies", "devDependencies", "peerDependencies",
          "optionalDependencies"] : List String).map
        (fun sec => (sectionPackages o sec).map (fun pkg =>
          ({ source := fp, target := "node_modules/" ++ pkg,
             type := DependencyType.Import, lineNumbers := none,
             isExternal := true } : Dependency)))).flatten, []) := by
  have hone : ∀ sec : String,
      (∀ v, mapLookup o sec = some v → ∃ kvs, v = Json.jobj kvs) →
      (match jsonIndex (Json.jobj o) sec with
       | some v =>
           if jsTruthy v then
             (jsEntries v).map (fun kv : String × Json =>
               ({ source := fp, target := "node_modules/" ++ kv.1,
                  type := DependencyType.Import, lineNumbers := none,
                  isExternal := true } : Dependency))
           else []
       | none => []) =
      (sectionPackages o sec).map (fun pkg =>
        ({ source := fp, target := "node_modules/" ++ pkg,
           type := DependencyType.Import, lineNumbers := none,
           isExternal := true } : Dependency)) := by
    intro sec hv
    show (match mapLookup o sec with
          | some v =>
              if jsTruthy v then
                (jsEntries v).map (fun kv : String × Json =>
                  ({ source := fp, target := "node_modules/" ++ kv.1,
                     type := DependencyType.Import, lineNumbers := none,
                     isExternal := true } : Dependency))
              else []
          | none => []) = _
    cases h : mapLookup o sec with
    | none => simp [sectionPackages, h]
    | some v =>
      obtain ⟨kvs, rfl⟩ := hv v h
      simp [sectionPackages, h, jsTruthy, jsEntries, List.map_map, Function.comp]
  unfold extractJSONDependencies
  rw [hfp, hparse]
  dsimp only
  refine congrArg (fun x : List Dependency => (x, ([] : List String))) ?_
  refine congrArg List.flatten ?_
  exact List.map_congr_left (fun sec hs => hone sec (hsec sec hs))

/-- Witness for C6: the manifest `{"dependencies": {"lodash": "^4.0.0"}}`
yields the single external import dependency on `node_modules/lodash`. -/
theorem extractJSONDependencies_manifest_sections_witness :
    extractJSONDependencies "pkg/package.json" manifestW =
      ([{ source := "pkg/package.json", target := "node_modules/lodash",
          type := DependencyType.Import, lineNumbers := none,
          isExternal := true }], []) :=
  (extractJSONDependencies_manifest_sections "pkg/package.json" manifestW
      [("dependencies", Json.jobj [("lodash", Json.jstr "^4.0.0")])]
      (by decide) (by rfl)
      (by
        intro sec hs v hv
        fin_cases hs
        · exact ⟨[("lodash", Json.jstr "^4.0.0")],
            by simpa [mapLookup] using hv.symm⟩
        · simp [mapLookup] at hv
        · simp [mapLookup] at hv
        · simp [mapLookup] at hv)).trans (by rfl)

/- ### Graph-builder lemmas -/

theorem insertEdge_nodes (g : DependencyGraph) (p : String) (dep : Dependency) :
    (insertEdge g p dep).nodes = g.nodes := by
  unfold insertEdge
  by_cases hc : mapContains g.nodes dep.target = true
  · rw [if_pos hc]
    cases mapLookup g.edges p <;> rfl
  · rw [if_neg hc]

theorem foldl_insertEdge_nodes (p : String) (deps : List Dependency) :
    ∀ g : DependencyGraph,
      (deps.foldl (fun g d => insertEdge g p d) g).nodes = g.nodes := by
  induction deps with
  | nil => intro g; rfl
  | cons d ds ih => intro g; rw [List.foldl_cons, ih, insertEdge_nodes]

theorem edgesOk_insertEdge (g : DependencyGraph) (p : String) (dep : Dependency)
    (h : EdgesOk g) : EdgesOk (insertEdge g p dep) := by
  unfold insertEdge
  by_cases hc : mapContains g.nodes dep.target = true
  · rw [if_pos hc]
    cases hm : mapLookup g.edges p with
    | none => exact h
    | some m0 =>
      constructor
      · intro s hs
        rcases (mapContains_mapSet _ _ _ _).mp hs with rfl | hs'
        · exact h.1 s (by simp [mapContains, hm])
        · exact h.1 s hs'
      · intro s m hm' t d htd
        by_cases hsp : s = p
        · subst hsp
          rw [mapLookup_mapSet_self] at hm'
          obtain rfl := Option.some.inj hm'
          rcases mem_mapSet _ _ _ _ htd with heq | hmem
          · have ht : t = dep.target := congrArg Prod.fst heq
            subst ht
            exact hc
          · exact h.2 s m0 hm t d hmem
        · rw [mapLookup_mapSet_ne _ _ _ _ hsp] at hm'
          exact h.2 s m hm' t d htd
  · rw [if_neg hc]
    exact h

theorem edgesOk_foldl_insertEdge (p : String) (deps : List Dependency) :
    ∀ g : DependencyGraph, EdgesOk g →
      EdgesOk (deps.foldl (fun g d => insertEdge g p d) g) := by
  induction deps with
  | nil => intro g h; exact h
  | cons d ds ih =>
    intro g h
    rw [List.foldl_cons]
    exact ih _ (edgesOk_insertEdge g p d h)

theorem edgesOk_buildStep (ctx : Ctx) (acc : BuildRes) (f : FileInfo)
    (h : EdgesOk acc.graph) : EdgesOk (buildStep ctx acc f).graph :=
  edgesOk_foldl_insertEdge f.path _ acc.graph h

theorem edgesOk_fold_buildStep (ctx : Ctx) (files : List FileInfo) :
    ∀ acc : BuildRes, EdgesOk acc.graph →
      EdgesOk ((files.foldl (buildStep ctx) acc)).graph := by
  induction files with
  | nil => intro acc h; exact h
  | cons f fs ih =>
    intro acc h
    rw [List.foldl_cons]
    exact ih _ (edgesOk_buildStep ctx acc f h)

theorem edgesOk_init (files : List FileInfo) :
    EdgesOk { nodes := files.foldl (fun n f => mapSet n f.path f) [],
              edges := files.foldl (fun e f => mapSet e f.path []) [] } := by
  constructor
  · intro s hs
    have h1 := (mapContains_foldl_mapSet (fun f : FileInfo => f.path)
      (fun _ => ([] : List (String × Dependency))) files [] s).mp hs
    rcases h1 with h | ⟨x, hx, hk⟩
    · simp [mapContains, mapLookup] at h
    · exact (mapContains_foldl_mapSet (fun f : FileInfo => f.path)
        (fun f => f) files [] s).mpr (Or.inr ⟨x, hx, hk⟩)
  · intro s m hm t d htd
    rcases mapLookup_foldl_mapSet_const (fun f : FileInfo => f.path)
        ([] : List (String × Dependency)) files [] s m hm with h | h
    · subst h
      simp at htd
    · simp [mapLookup] at h

/-- C2: every edge stored in the graph built by `buildDependencyGraph`
has both its source key and its target key present in the node map. -/
theorem buildDependencyGraph_edge_endpoints (ctx : Ctx) (files : List FileInfo)
    (cache0 : Cache) (src tgt : String) (m : List (String × Dependency))
    (dep : Dependency)
    (h1 : mapLookup (buildDependencyGraph ctx files cache0).graph.edges src = some m)
    (h2 : (tgt, dep) ∈ m) :
    mapContains (buildDependencyGraph ctx files cache0).graph.nodes src = true ∧
    mapContains (buildDependencyGraph ctx files cache0).graph.nodes tgt = true := by
  have hok : EdgesOk (buildDependencyGraph ctx files cache0).graph := by
    unfold buildDependencyGraph
    dsimp only
    exact edgesOk_fold_buildStep ctx files _ (edgesOk_init files)
  exact ⟨hok.1 src (by simp [mapContains, h1]), hok.2 src m h1 tgt dep h2⟩

/-- Witness for C2: the two-file markdown project produces the edge
`/w/a.md → /w/b.md`, and both endpoints are nodes. -/
theorem buildDependencyGraph_edge_endpoints_witness :
    (mapLookup (buildDependencyGraph ctxW [fmdA, fmdB] []).graph.edges "/w/a.md" =
      some [("/w/b.md",
        { source := "/w/a.md", target := "/w/b.md",
          type := DependencyType.Reference, lineNumbers := some [0],
          isExternal := false })]) ∧
    mapContains (buildDependencyGraph ctxW [fmdA, fmdB] []).graph.nodes "/w/a.md" = true ∧
    mapContains (buildDependencyGraph ctxW [fmdA, fmdB] []).graph.nodes "/w/b.md" = true :=
  ⟨by decide,
   buildDependencyGraph_edge_endpoints ctxW [fmdA, fmdB] [] "/w/a.md" "/w/b.md"
     [("/w/b.md",
       { source := "/w/a.md", target := "/w/b.md",
         type := DependencyType.Reference, lineNumbers := some [0],
         isExternal := false })]
     { source := "/w/a.md", target := "/w/b.md",
       type := DependencyType.Reference, lineNumbers := some [0],
       isExternal := false }
     (by decide) (by decide)⟩

/- ### Lemmas for the empty-edge-map property -/

theorem contains_false_lookup_none {β : Type} (m : List (String × β)) (k : String)
    (h : mapContains m k = false) : mapLookup m k = none := by
  unfold mapContains at h
  cases hm : mapLookup m k with
  | none => rfl
  | some v => rw [hm] at h; simp at h

theorem insertEdge_edges_other (g : DependencyGraph) (srcPath p : String)
    (d : Dependency) (h : srcPath ≠ p) :
    mapLookup (insertEdge g srcPath d).edges p = mapLookup g.edges p := by
  unfold insertEdge
  by_cases hc : mapContains g.nodes d.target = true
  · rw [if_pos hc]
    cases mapLookup g.edges srcPath with
    | none => rfl
    | some m0 => exact mapLookup_mapSet_ne _ _ _ _ (fun he => h he.symm)
  · rw [if_neg hc]

theorem foldl_insertEdge_edges_other (srcPath p : String) (h : srcPath ≠ p)
    (deps : List Dependency) :
    ∀ g : DependencyGraph,
      mapLookup ((deps.foldl (fun g d => insertEdge g srcPath d) g)).edges p =
        mapLookup g.edges p := by
  induction deps with
  | nil => intro g; rfl
  | cons d ds ih =>
    intro g
    rw [List.foldl_cons, ih, insertEdge_edges_other g srcPath p d h]

theorem buildStep_nodes (ctx : Ctx) (acc : BuildRes) (f : FileInfo) :
    (buildStep ctx acc f).graph.nodes = acc.graph.nodes :=
  foldl_insertEdge_nodes f.path _ acc.graph

theorem buildStep_edges_other (ctx : Ctx) (acc : BuildRes) (f : FileInfo) (p : String)
    (h : f.path ≠ p) :
    mapLookup (buildStep ctx acc f).graph.edges p = mapLookup acc.graph.edges p :=
  foldl_insertEdge_edges_other f.path p h _ acc.graph

theorem fold_buildStep_edges_other (ctx : Ctx) (p : String) (fs : List FileInfo)
    (h : ∀ x ∈ fs, x.path ≠ p) :
    ∀ acc : BuildRes,
      mapLookup ((fs.foldl (buildStep ctx) acc)).graph.edges p =
        mapLookup acc.graph.edges p := by
  induction fs with
  | nil => intro acc; rfl
  | cons g gs ih =>
    intro acc
    rw [List.foldl_cons, ih (fun x hx => h x (List.mem_cons_of_mem _ hx)),
      buildStep_edges_other ctx acc g p (h g (List.mem_cons_self g gs))]

theorem buildStep_cache_mem (ctx : Ctx) (acc : BuildRes) (f : FileInfo) (k : String)
    (h : mapContains (buildStep ctx acc f).cache k = true) :
    mapContains acc.cache k = true ∨ k = f.path := by
  have hc : (buildStep ctx acc f).cache = (analyzeDependencies ctx f acc.cache).cache := rfl
  rw [hc] at h
  rcases analyze_cache_cases ctx f acc.cache with ha | ha
  · rw [ha] at h
    exact Or.inl h
  · rw [ha] at h
    rcases (mapContains_mapSet _ _ _ _).mp h with h1 | h1
    · exact Or.inr h1
    · exact Or.inl h1

theorem foldl_insertEdge_no_match (p : String) (deps : List Dependency) :
    ∀ g : DependencyGraph,
      (∀ d ∈ deps, mapContains g.nodes d.target = false) →
      deps.foldl (fun g d => insertEdge g p d) g = g := by
  induction deps with
  | nil => intro g _; rfl
  | cons d ds ih =>
    intro g h
    rw [List.foldl_cons]
    have h0 : insertEdge g p d = g := by
      unfold insertEdge
      rw [if_neg (by simp [h d (List.mem_cons_self d ds)])]
    rw [h0]
    exact ih g (fun d' hd' => h d' (List.mem_cons_of_mem _ hd'))

theorem buildStep_no_match (ctx : Ctx) (acc : BuildRes) (f : FileInfo)
    (hcache : mapLookup acc.cache f.path = none)
    (htgt : ∀ d ∈ (analyzeDependencies ctx f []).deps,
      mapContains acc.graph.nodes d.target = false) :
    (buildStep ctx acc f).graph = acc.graph := by
  show (analyzeDependencies ctx f acc.cache).deps.foldl
      (fun g dep => insertEdge g f.path dep) acc.graph = acc.graph
  rw [analyze_deps_of_not_cached ctx f acc.cache hcache]
  exact foldl_insertEdge_no_match f.path _ acc.graph htgt

theorem build_fold_empty_entry (ctx : Ctx) (f : FileInfo)
    (N : List (String × FileInfo))
    (htgt : ∀ d ∈ (analyzeDependencies ctx f []).deps,
      mapContains N d.target = false) :
    ∀ (fs : List FileInfo) (acc : BuildRes),
      f ∈ fs → (fs.map (fun x => x.path)).Nodup →
      acc.graph.nodes = N →
      mapContains acc.cache f.path = false →
      mapLookup acc.graph.edges f.path = some [] →
      mapLookup ((fs.foldl (buildStep ctx) acc)).graph.edges f.path = some [] := by
  intro fs
  induction fs with
  | nil => intro acc hf; exact absurd hf (List.not_mem_nil f)
  | cons g gs ih =>
    intro acc hf hnd hN hcache hentry
    have hnd1 : g.path ∉ gs.map (fun x => x.path) := (List.nodup_cons.mp (by simpa using hnd)).1
    have hnd2 : (gs.map (fun x => x.path)).Nodup := (List.nodup_cons.mp (by simpa using hnd)).2
    rw [List.foldl_cons]
    rcases List.mem_cons.mp hf with rfl | hf'
    · have hstep : (buildStep ctx acc f).graph = acc.graph :=
        buildStep_no_match ctx acc f (contains_false_lookup_none _ _ hcache)
          (fun d hd => hN ▸ htgt d hd)
      have hothers : ∀ x ∈ gs, x.path ≠ f.path := by
        intro x hx he
        exact hnd1 (he ▸ List.mem_map.mpr ⟨x, hx, rfl⟩)
      rw [fold_buildStep_edges_other ctx f.path gs hothers, hstep]
      exact hentry
    · have hgf : g.path ≠ f.path := by
        intro he
        exact hnd1 (he ▸ List.mem_map.mpr ⟨f, hf', rfl⟩)
      apply ih _ hf' hnd2
      · rw [buildStep_nodes]
        exact hN
      · apply Bool.eq_false_iff.mpr
        intro hcon
        rcases buildStep_cache_mem ctx acc g f.path hcon with h | h
        · rw [h] at hcache
          simp at hcache
        · exact hgf h.symm
      · rw [buildStep_edges_other ctx acc g f.path hgf]
        exact hentry

/-- C9 (amended): a file none of whose extracted dependencies resolves to
an existing node key still has an entry in the edge structure, namely the
empty edge map created up front — the entry is present but holds no
edges. -/
theorem buildDependencyGraph_unmatched_file_empty_edge_map (ctx : Ctx)
    (files : List FileInfo) (f : FileInfo)
    (hf : f ∈ files) (hnd : (files.map (fun x => x.path)).Nodup)
    (htgt : ∀ d ∈ (analyzeDependencies ctx f []).deps, ∀ g ∈ files, d.target ≠ g.path) :
    mapLookup (buildDependencyGraph ctx files []).graph.edges f.path = some [] := by
  unfold buildDependencyGraph
  dsimp only
  refine build_fold_empty_entry ctx f
    (files.foldl (fun n f => mapSet n f.path f) []) ?_ files _ hf hnd rfl ?_ ?_
  · intro d hd
    apply Bool.eq_false_iff.mpr
    intro hcon
    rcases (mapContains_foldl_mapSet (fun x : FileInfo => x.path)
      (fun x => x) files [] d.target).mp hcon with h | ⟨x, hx, hk⟩
    · simp [mapContains, mapLookup] at h
    · exact htgt d hd x hx hk.symm
  · rfl
  · have hc : mapContains
        (files.foldl (fun e x => mapSet e x.path ([] : List (String × Dependency))) [])
        f.path = true :=
      (mapContains_foldl_mapSet (fun x : FileInfo => x.path)
        (fun _ => ([] : List (String × Dependency))) files [] f.path).mpr
        (Or.inr ⟨f, hf, rfl⟩)
    unfold mapContains at hc
    cases hm : mapLookup
        (files.foldl (fun e x => mapSet e x.path ([] : List (String × Dependency))) [])
        f.path with
    | none => rw [hm] at hc; simp at hc
    | some m =>
      rcases mapLookup_foldl_mapSet_const (fun x : FileInfo => x.path)
          ([] : List (String × Dependency)) files [] f.path m hm with h | h
      · rw [h]
      · simp [mapLookup] at h

/-- Witness for the amended C9: the dependency-less file `fmdEmpty` maps
to an empty edge map. -/
theorem buildDependencyGraph_unmatched_file_empty_edge_map_witness :
    mapLookup (buildDependencyGraph ctxW [fmdEmpty] []).graph.edges fmdEmpty.path =
      some [] :=
  buildDependencyGraph_unmatched_file_empty_edge_map ctxW [fmdEmpty] fmdEmpty
    (List.mem_singleton.mpr rfl) (by simp)
    (by
      intro d hd
      rw [show (analyzeDependencies ctxW fmdEmpty []).deps = [] from rfl] at hd
      exact absurd hd (List.not_mem_nil d))

/-- Counterexample to C9 as stated: `fmdEmpty` produces no dependency at
all, yet the edges mapping of the built graph does contain an entry for
it (the empty map) — it is not absent. -/
theorem buildDependencyGraph_entry_exists_for_depless_file :
    (analyzeDependencies ctxW fmdEmpty []).deps = [] ∧
    mapLookup (buildDependencyGraph ctxW [fmdEmpty] []).graph.edges "/w/x.md" ≠ none := by
  exact ⟨rfl, by decide⟩

/-- C10 (amended): an image reference `![alt](path)` whose path does not
start with `http` or `#` and does not contain `@`, and whose `[alt](path)`
portion is also produced as a link-pattern match with the same captured
path, yields two Dependency records — one from the image pass and one
from the link pass — with the same source, the same resolved target, kind
reference and `isExternal = false`. -/
theorem extractMarkdown_image_and_link_double_emit (ctx : Ctx) (fp content : String)
    (full alt p fl lt : String)
    (him : (full, alt, p) ∈ mdImageMatches content)
    (hlk : (fl, lt, p) ∈ mdLinkMatches content)
    (hhttp : jsStartsWith p "http" = false)
    (hhash : jsStartsWith p "#" = false)
    (hat : jsIncludes p "@" = false) :
    2 ≤ ((extractMarkdownDependencies ctx fp content).filter
        (fun d => decide (d.source = fp ∧ d.target = resolveImportPath ctx fp p ∧
          d.type = DependencyType.Reference ∧ d.isExternal = false))).length := by
  unfold extractMarkdownDependencies
  rw [List.filter_append, List.length_append]
  have h1 : ({ source := fp,
               target := resolveImportPath ctx fp p,
               type := DependencyType.Reference,
               lineNumbers := some (findLineNumbers content full),
               isExternal := false } : Dependency) ∈
      (mdImageMatches content).filterMap
        (fun m =>
          if jsStartsWith m.2.2 "http" then none
          else
            some { source := fp,
                   target := resolveImportPath ctx fp m.2.2,
                   type := DependencyType.Reference,
                   lineNumbers := some (findLineNumbers content m.1),
                   isExternal := false }) := by
    refine List.mem_filterMap.mpr ⟨(full, alt, p), him, ?_⟩
    rw [if_neg (by simp [hhttp])]
  have h2 : ({ source := fp,
               target := resolveImportPath ctx fp p,
               type := DependencyType.Reference,
               lineNumbers := some (findLineNumbers content fl),
               isExternal := false } : Dependency) ∈
      (mdLinkMatches content).filterMap
        (fun m =>
          if jsStartsWith m.2.2 "http" || jsStartsWith m.2.2 "#" || jsIncludes m.2.2 "@"
          then none
          else
            some { source := fp,
                   target := resolveImportPath ctx fp m.2.2,
                   type := DependencyType.Reference,
                   lineNumbers := some (findLineNumbers content m.1),
                   isExternal := false }) := by
    refine List.mem_filterMap.mpr ⟨(fl, lt, p), hlk, ?_⟩
    rw [if_neg (by simp [hhttp, hhash, hat])]
  have hp1 : 0 < (((mdImageMatches content).filterMap
      (fun m =>
        if jsStartsWith m.2.2 "http" then none
        else
          some ({ source := fp,
                  target := resolveImportPath ctx fp m.2.2,
                  type := DependencyType.Reference,
                  lineNumbers := some (findLineNumbers content m.1),
                  isExternal := false } : Dependency))).filter
        (fun d : Dependency =>
          decide (d.source = fp ∧ d.target = resolveImportPath ctx fp p ∧
            d.type = DependencyType.Reference ∧ d.isExternal = false))).length :=
    List.length_pos_of_mem (List.mem_filter.mpr ⟨h1, by simp⟩)
  have hp2 : 0 < (((mdLinkMatches content).filterMap
      (fun m =>
        if jsStartsWith m.2.2 "http" || jsStartsWith m.2.2 "#" || jsIncludes m.2.2 "@"
        then none
        else
          some ({ source := fp,
                  target := resolveImportPath ctx fp m.2.2,
                  type := DependencyType.Reference,
                  lineNumbers := some (findLineNumbers content m.1),
                  isExternal := false } : Dependency))).filter
        (fun d : Dependency =>
          decide (d.source = fp ∧ d.target = resolveImportPath ctx fp p ∧
            d.type = DependencyType.Reference ∧ d.isExternal = false))).length :=
    List.length_pos_of_mem (List.mem_filter.mpr ⟨h2, by simp⟩)
  omega

/-- Witness for the amended C10: in `![a](b)` both passes emit a record
targeting the resolution of `b`. -/
theorem extractMarkdown_image_and_link_double_emit_witness :
    2 ≤ ((extractMarkdownDependencies ctxW "/m/f.md" "![a](b)").filter
        (fun d => decide (d.source = "/m/f.md" ∧
          d.target = resolveImportPath ctxW "/m/f.md" "b" ∧
          d.type = DependencyType.Reference ∧ d.isExternal = false))).length :=
  extractMarkdown_image_and_link_double_emit ctxW "/m/f.md" "![a](b)"
    "![a](b)" "a" "b" "[a](b)" "a"
    (by decide) (by decide) (by decide) (by decide) (by decide)

/-- Counterexample to C10 as stated: in `![a](x@y)` the image reference
has non-empty alt text and a path not starting with `http`, and the link
pattern does match it too, yet only one Dependency record is emitted —
the link pass skips paths containing `@`. -/
theorem extractMarkdown_at_sign_single_emit :
    ("![a](x@y)", "a", "x@y") ∈ mdImageMatches "![a](x@y)" ∧
    ("[a](x@y)", "a", "x@y") ∈ mdLinkMatches "![a](x@y)" ∧
    "a" ≠ "" ∧
    jsStartsWith "x@y" "http" = false ∧
    (extractMarkdownDependencies ctxW "/m/f.md" "![a](x@y)").length = 1 :=
  ⟨by decide, by decide, by decide, by decide, by decide⟩
